import Mathlib

/-!
Verification of the `las-crs` crate (src/lib.rs): extraction of EPSG CRS
codes from WKT-CRS bytes and GeoTIFF key directories.

Byte buffers are modelled as `List Nat` (each element a `u8` value);
`u16` arithmetic is modelled on `Nat` with explicit `% 65536` where the
source wraps. Fallible functions return `Except Error _`, mirroring the
Rust `Result<_, Error>`.
-/

namespace LasCrs

/-- `u8::is_ascii_digit`: the byte is one of `b'0'..=b'9'` (48..=57). -/
def isAsciiDigit (b : Nat) : Bool :=
  decide (48 ≤ b) && decide (b ≤ 57)

/-- `u8::is_ascii_whitespace`: space, tab, newline, form feed, carriage return. -/
def isAsciiWhitespace (b : Nat) : Bool :=
  b == 32 || b == 9 || b == 10 || b == 12 || b == 13

/-- `[u8]::trim_ascii_end`: remove trailing ASCII whitespace bytes. -/
def trimAsciiEnd (bs : List Nat) : List Nat :=
  (bs.reverse.dropWhile isAsciiWhitespace).reverse

/--
The loop body of `WktPieces::get_code` (src/lib.rs lines 229-253), iterating
over the (already trimmed and reversed) bytes with the remaining iteration
budget of `.take(10)` as `fuel`. State: `code` = `epsg_code`, `started` =
`code_has_started`, `power` = `power`. The `u16` additions and
multiplications wrap modulo 2^16 (release-profile semantics).
-/
def get_code_loop : List Nat → Nat → Nat → Bool → Nat → Nat
  | _, 0, code, _, _ => code
  | [], _, code, _, _ => code
  | b :: rest, fuel + 1, code, started, power =>
    if isAsciiDigit b then
      get_code_loop rest fuel ((code + power * (b - 48)) % 65536) true ((power * 10) % 65536)
    else if started then
      code
    else
      get_code_loop rest fuel code started power

/-- `WktPieces::get_code` (src/lib.rs lines 225-255). -/
def get_code (bytes : List Nat) : Nat :=
  get_code_loop (trimAsciiEnd bytes).reverse 10 0 false 1

/-- The same loop with unbounded natural-number arithmetic (no wrapping). -/
def get_code_loopN : List Nat → Nat → Nat → Bool → Nat → Nat
  | _, 0, code, _, _ => code
  | [], _, code, _, _ => code
  | b :: rest, fuel + 1, code, started, power =>
    if isAsciiDigit b then
      get_code_loopN rest fuel (code + power * (b - 48)) true (power * 10)
    else if started then
      code
    else
      get_code_loopN rest fuel code started power

/--
Overflow detector mirroring `get_code_loop`: returns `true` iff some
executed `u16` operation (`epsg_code += power * d` or `power *= 10`)
exceeds `u16::MAX` (which panics under the debug profile).
-/
def get_code_loopOv : List Nat → Nat → Nat → Bool → Nat → Bool
  | _, 0, _, _, _ => false
  | [], _, _, _, _ => false
  | b :: rest, fuel + 1, code, started, power =>
    if isAsciiDigit b then
      if decide (65536 ≤ code + power * (b - 48)) || decide (65536 ≤ power * 10) then
        true
      else
        get_code_loopOv rest fuel (code + power * (b - 48)) true (power * 10)
    else if started then
      false
    else
      get_code_loopOv rest fuel code started power

/-- `true` iff evaluating `get_code` on `bytes` overflows `u16` arithmetic. -/
def get_code_overflows (bytes : List Nat) : Bool :=
  get_code_loopOv (trimAsciiEnd bytes).reverse 10 0 false 1

/-- Value of a least-significant-digit-first list of ASCII digit bytes. -/
def valOfDigits (ds : List Nat) : Nat :=
  ds.foldr (fun d acc => acc * 10 + (d - 48)) 0

/--
Claim-shaped restatement of the trailing-integer extractor, written from
the spec's words (§4.2 step 3): trim trailing ASCII whitespace, look at
at most the last 10 bytes from the end, skip until the first digit, take
the consecutive run of digits, combine least-significant-first into an
unsigned 16-bit value; no digit yields 0.
-/
def get_code_spec (bytes : List Nat) : Nat :=
  let window := (trimAsciiEnd bytes).reverse.take 10
  valOfDigits ((window.dropWhile fun b => !(isAsciiDigit b)).takeWhile isAsciiDigit) % 65536

lemma get_code_loopN_started (l : List Nat) :
    ∀ fuel code power,
      get_code_loopN l fuel code true power =
        code + power * valOfDigits ((l.take fuel).takeWhile isAsciiDigit) := by
  induction l with
  | nil =>
    intro fuel code power
    cases fuel <;> simp [get_code_loopN, valOfDigits]
  | cons b rest ih =>
    intro fuel code power
    cases fuel with
    | zero => simp [get_code_loopN, valOfDigits]
    | succ fuel =>
      by_cases hb : isAsciiDigit b
      · rw [show get_code_loopN (b :: rest) (fuel + 1) code true power =
            get_code_loopN rest fuel (code + power * (b - 48)) true (power * 10) by
              simp [get_code_loopN, hb]]
        rw [ih]
        simp only [List.take_succ_cons, List.takeWhile_cons_of_pos hb, valOfDigits,
          List.foldr_cons]
        ring
      · rw [show get_code_loopN (b :: rest) (fuel + 1) code true power = code by
              simp [get_code_loopN, hb]]
        simp [List.takeWhile_cons_of_neg hb, valOfDigits]

lemma get_code_loopN_unstarted (l : List Nat) :
    ∀ fuel code power,
      get_code_loopN l fuel code false power =
        code + power *
          valOfDigits (((l.take fuel).dropWhile fun b => !(isAsciiDigit b)).takeWhile
            isAsciiDigit) := by
  induction l with
  | nil =>
    intro fuel code power
    cases fuel <;> simp [get_code_loopN, valOfDigits]
  | cons b rest ih =>
    intro fuel code power
    cases fuel with
    | zero => simp [get_code_loopN, valOfDigits]
    | succ fuel =>
      by_cases hb : isAsciiDigit b
      · rw [show get_code_loopN (b :: rest) (fuel + 1) code false power =
            get_code_loopN rest fuel (code + power * (b - 48)) true (power * 10) by
              simp [get_code_loopN, hb]]
        rw [get_code_loopN_started]
        simp only [List.take_succ_cons, List.dropWhile_cons, hb, Bool.not_true,
          Bool.false_eq_true, if_false, List.takeWhile_cons_of_pos hb, valOfDigits,
          List.foldr_cons]
        ring
      · rw [show get_code_loopN (b :: rest) (fuel + 1) code false power =
            get_code_loopN rest fuel code false power by
              simp [get_code_loopN, hb]]
        rw [ih]
        have hb' : isAsciiDigit b = false := by
          cases h : isAsciiDigit b
          · rfl
          · exact absurd h hb
        simp only [List.take_succ_cons, List.dropWhile_cons, hb', Bool.not_false,
          reduceIte]

lemma get_code_loop_eq_mod (l : List Nat) :
    ∀ fuel code code' (started : Bool) power power',
      code < 65536 → Nat.ModEq 65536 code code' → Nat.ModEq 65536 power power' →
      get_code_loop l fuel code started power =
        get_code_loopN l fuel code' started power' % 65536 := by
  induction l with
  | nil =>
    intro fuel code code' started power power' hlt hc hp
    have hc' : code % 65536 = code' % 65536 := hc
    cases fuel <;> simp [get_code_loop, get_code_loopN] <;> omega
  | cons b rest ih =>
    intro fuel code code' started power power' hlt hc hp
    have hc' : code % 65536 = code' % 65536 := hc
    cases fuel with
    | zero =>
      simp [get_code_loop, get_code_loopN]
      omega
    | succ fuel =>
      by_cases hb : isAsciiDigit b
      · rw [show get_code_loop (b :: rest) (fuel + 1) code started power =
            get_code_loop rest fuel ((code + power * (b - 48)) % 65536) true
              ((power * 10) % 65536) by simp [get_code_loop, hb]]
        rw [show get_code_loopN (b :: rest) (fuel + 1) code' started power' =
            get_code_loopN rest fuel (code' + power' * (b - 48)) true (power' * 10) by
              simp [get_code_loopN, hb]]
        apply ih
        · exact Nat.mod_lt _ (by norm_num)
        · exact (Nat.mod_modEq _ _).trans (Nat.ModEq.add hc (hp.mul_right _))
        · exact (Nat.mod_modEq _ _).trans (hp.mul_right _)
      · by_cases hs : started = true
        · subst hs
          rw [show get_code_loop (b :: rest) (fuel + 1) code true power = code by
                simp [get_code_loop, hb]]
          rw [show get_code_loopN (b :: rest) (fuel + 1) code' true power' = code' by
                simp [get_code_loopN, hb]]
          omega
        · have hs' : started = false := by
            cases started
            · rfl
            · exact absurd rfl hs
          subst hs'
          rw [show get_code_loop (b :: rest) (fuel + 1) code false power =
              get_code_loop rest fuel code false power by simp [get_code_loop, hb]]
          rw [show get_code_loopN (b :: rest) (fuel + 1) code' false power' =
              get_code_loopN rest fuel code' false power' by simp [get_code_loopN, hb]]
          exact ih fuel code code' false power power' hlt hc hp

lemma get_code_eq_spec (bytes : List Nat) : get_code bytes = get_code_spec bytes := by
  unfold get_code get_code_spec
  rw [get_code_loop_eq_mod (trimAsciiEnd bytes).reverse 10 0 0 false 1 1
      (by norm_num) (Nat.ModEq.refl _) (Nat.ModEq.refl _)]
  rw [get_code_loopN_unstarted]
  simp

/-- `EPSG_RANGE.contains`: `EPSG_RANGE = 1024..=(i16::MAX as u16)` (src/lib.rs line 34). -/
def EPSG_RANGE_contains (c : Nat) : Bool :=
  decide (1024 ≤ c) && decide (c ≤ 32767)

/-- The `EpsgCRS` struct (src/lib.rs lines 38-44). Codes are `u16` values. -/
structure EpsgCRS where
  horizontal : Nat
  vertical : Option Nat
  deriving DecidableEq, Repr

/--
Modelled from the spec: `las::crs::GeoTiffData`, an external collaborator type
whose definition is not under src/. Per spec §3 a payload is "one of
{inline 16-bit integer, decoded text, list of 64-bit floats}"; the text is
modelled as its byte sequence and the floats by their raw 64-bit patterns,
since this crate never interprets either payload's contents.
-/
inductive GeoTiffData where
  | U16 : Nat → GeoTiffData
  | Ascii : List Nat → GeoTiffData
  | Double : List Nat → GeoTiffData
  deriving DecidableEq, Repr

/--
Modelled from the spec: a GeoTIFF directory entry (spec §3 `GeoTiffKeyEntry`),
`id: unsigned 16-bit key identifier` plus a resolved payload.
-/
structure GeoTiffKeyEntry where
  id : Nat
  data : GeoTiffData
  deriving DecidableEq, Repr

/--
Modelled from the spec: `las::crs::GeoTiffCrs`, an "ordered list of
GeoTiffKeyEntry, insertion order = directory order" (spec §3).
-/
structure GeoTiffCrs where
  entries : List GeoTiffKeyEntry
  deriving DecidableEq, Repr

/--
Modelled from the spec: the collaborator's `las::Error`. Only
`UnreadableGeoTiffCrs` is produced by this crate's own code; every other
collaborator failure is represented abstractly by `Other`.
-/
inductive LasError where
  | UnreadableGeoTiffCrs : LasError
  | Other : Nat → LasError
  deriving DecidableEq, Repr

/-- The `Error` enum (src/lib.rs lines 120-143). -/
inductive Error where
  | LasError : LasError → Error
  | UserDefinedCrs : Error
  | UnreadableWktCrs : Error
  | BadHorizontalCodeParsed : EpsgCRS → Error
  | UnimplementedForGeoTiffStringAndDoubleData : GeoTiffData → Error
  | SetBadCode : Nat → Error
  | BadEPSGCrs : Error
  deriving DecidableEq, Repr

deriving instance DecidableEq for Except

/-- `EpsgCRS::in_epsg_range` (src/lib.rs lines 69-76). -/
def EpsgCRS.in_epsg_range (s : EpsgCRS) : Bool :=
  match s.vertical with
  | some vc =>
    if !(EPSG_RANGE_contains vc) then false
    else EPSG_RANGE_contains s.horizontal
  | none => EPSG_RANGE_contains s.horizontal

/-- `EpsgCRS::new` (src/lib.rs lines 48-58). -/
def EpsgCRS.new (horizontal_code : Nat) (vertical_code : Option Nat) :
    Except Error EpsgCRS :=
  let code : EpsgCRS := { horizontal := horizontal_code, vertical := vertical_code }
  if code.in_epsg_range then .ok code else .error .BadEPSGCrs

/-- `EpsgCRS::get_horizontal` (src/lib.rs lines 79-81). -/
def EpsgCRS.get_horizontal (s : EpsgCRS) : Nat := s.horizontal

/-- `EpsgCRS::get_vertical` (src/lib.rs lines 84-86). -/
def EpsgCRS.get_vertical (s : EpsgCRS) : Option Nat := s.vertical

/-- The pieces of a WKT text after the vertical-marker split (src/lib.rs lines 212-215). -/
inductive WktPieces where
  | One : List Nat → WktPieces
  | Two : List Nat → List Nat → WktPieces
  deriving DecidableEq, Repr

/-- `WktPieces::parse_codes` (src/lib.rs lines 218-223). -/
def parse_codes : WktPieces → Nat × Nat
  | .One hor => (get_code hor, 0)
  | .Two hor ver => (get_code hor, get_code ver)

/--
Index of the first occurrence of `pat` as a contiguous subsequence of `l`
(the search underlying Rust's `str::find` / `str::split_once`).
-/
def findSubIdx (pat : List Nat) : List Nat → Option Nat
  | [] => if pat.isPrefixOf ([] : List Nat) then some 0 else none
  | b :: rest =>
    if pat.isPrefixOf (b :: rest) then some 0
    else (findSubIdx pat rest).map (· + 1)

/--
Rust `str::split_once(pat)`: the text before the first occurrence of `pat`
and the text after it (the matched pattern itself is dropped).
-/
def splitOnce (pat l : List Nat) : Option (List Nat × List Nat) :=
  match findSubIdx pat l with
  | some i => some (l.take i, l.drop (i + pat.length))
  | none => none

/-- The bytes of the marker `"VERTCRS"`. -/
def vertcrsMarker : List Nat := [86, 69, 82, 84, 67, 82, 83]

/-- The bytes of the marker `"VERTICALCRS"`. -/
def verticalcrsMarker : List Nat := [86, 69, 82, 84, 73, 67, 65, 76, 67, 82, 83]

/-- The bytes of the marker `"VERT_CS"`. -/
def vertcsMarker : List Nat := [86, 69, 82, 84, 95, 67, 83]

/--
The marker split of the decoded WKT text (src/lib.rs lines 258-267):
try `split_once` with `"VERTCRS"`, then `"VERTICALCRS"`, then `"VERT_CS"`.
-/
def wktSplit (wkt : List Nat) : WktPieces :=
  match splitOnce vertcrsMarker wkt with
  | some (horizontal, vertical) => .Two horizontal vertical
  | none =>
    match splitOnce verticalcrsMarker wkt with
    | some (horizontal, vertical) => .Two horizontal vertical
    | none =>
      match splitOnce vertcsMarker wkt with
      | some (horizontal, vertical) => .Two horizontal vertical
      | none => .One wkt

/-- UTF-8 continuation byte: `0x80..=0xBF`. -/
def isCont (b : Nat) : Bool := decide (0x80 ≤ b) && decide (b < 0xC0)

/-- Allowed first continuation byte after a three-byte lead `b`. -/
def cont3First (b c : Nat) : Bool :=
  if b == 0xE0 then decide (0xA0 ≤ c) && decide (c ≤ 0xBF)
  else if b == 0xED then decide (0x80 ≤ c) && decide (c ≤ 0x9F)
  else isCont c

/-- Allowed first continuation byte after a four-byte lead `b`. -/
def cont4First (b c : Nat) : Bool :=
  if b == 0xF0 then decide (0x90 ≤ c) && decide (c ≤ 0xBF)
  else if b == 0xF4 then decide (0x80 ≤ c) && decide (c ≤ 0x8F)
  else isCont c

/-- UTF-8 encoding of U+FFFD, the replacement character. -/
def replacementChar : List Nat := [0xEF, 0xBF, 0xBD]

/--
`String::from_utf8_lossy` from the Rust standard library, at the byte level:
the UTF-8 bytes of the decoded string. Valid sequences pass through
unchanged; each maximal invalid subpart is replaced by one U+FFFD
(invalid-continuation errors skip only the already-validated bytes, and an
incomplete sequence at the end of input yields a single trailing U+FFFD).
-/
def utf8LossyDecode : List Nat → List Nat
  | [] => []
  | b :: rest =>
    if b < 0x80 then b :: utf8LossyDecode rest
    else if b < 0xC2 then replacementChar ++ utf8LossyDecode rest
    else if b < 0xE0 then
      match rest with
      | [] => replacementChar
      | c1 :: rest1 =>
        if isCont c1 then b :: c1 :: utf8LossyDecode rest1
        else replacementChar ++ utf8LossyDecode (c1 :: rest1)
    else if b < 0xF0 then
      match rest with
      | [] => replacementChar
      | c1 :: rest1 =>
        if cont3First b c1 then
          match rest1 with
          | [] => replacementChar
          | c2 :: rest2 =>
            if isCont c2 then b :: c1 :: c2 :: utf8LossyDecode rest2
            else replacementChar ++ utf8LossyDecode (c2 :: rest2)
        else replacementChar ++ utf8LossyDecode (c1 :: rest1)
    else if b < 0xF5 then
      match rest with
      | [] => replacementChar
      | c1 :: rest1 =>
        if cont4First b c1 then
          match rest1 with
          | [] => replacementChar
          | c2 :: rest2 =>
            if isCont c2 then
              match rest2 with
              | [] => replacementChar
              | c3 :: rest3 =>
                if isCont c3 then b :: c1 :: c2 :: c3 :: utf8LossyDecode rest3
                else replacementChar ++ utf8LossyDecode (c3 :: rest3)
            else replacementChar ++ utf8LossyDecode (c2 :: rest2)
        else replacementChar ++ utf8LossyDecode (c1 :: rest1)
    else replacementChar ++ utf8LossyDecode rest

/-- The pair of raw codes extracted from WKT bytes: decode, split, `parse_codes`. -/
def wktCodes (bytes : List Nat) : Nat × Nat :=
  parse_codes (wktSplit (utf8LossyDecode bytes))

/-- `get_epsg_from_wkt_crs_bytes` (src/lib.rs lines 209-284). -/
def get_epsg_from_wkt_crs_bytes (bytes : List Nat) : Except Error EpsgCRS :=
  let codes := wktCodes bytes
  let code : EpsgCRS := { horizontal := codes.1, vertical := some codes.2 }
  if !(EPSG_RANGE_contains code.horizontal) then
    .error (.BadHorizontalCodeParsed code)
  else
    match code.vertical with
    | some v_code =>
      if !(EPSG_RANGE_contains v_code) then .ok { code with vertical := none }
      else .ok code
    | none => .ok code

/--
The entry loop of `get_epsg_from_geotiff_crs` (src/lib.rs lines 291-320),
threading the `out = (horizontal candidate, vertical candidate)` state;
an early `return Err` becomes an `Except.error` result.
-/
def reduceEntries : List GeoTiffKeyEntry → Nat × Option Nat →
    Except Error (Nat × Option Nat)
  | [], out => .ok out
  | entry :: rest, (hor, ver) =>
    if entry.id = 1024 then
      match entry.data with
      | .U16 0 => reduceEntries rest (hor, ver)
      | .U16 1 => reduceEntries rest (hor, ver)
      | .U16 2 => reduceEntries rest (hor, ver)
      | .U16 3 => reduceEntries rest (hor, ver)
      | .U16 32767 => .error .UserDefinedCrs
      | d => .error (.UnimplementedForGeoTiffStringAndDoubleData d)
    else if entry.id = 2048 ∨ entry.id = 3072 then
      match entry.data with
      | .U16 v => reduceEntries rest (v, ver)
      | _ => reduceEntries rest (hor, ver)
    else if entry.id = 4096 then
      match entry.data with
      | .U16 v => reduceEntries rest (hor, some v)
      | _ => reduceEntries rest (hor, ver)
    else reduceEntries rest (hor, ver)

/-- `get_epsg_from_geotiff_crs` (src/lib.rs lines 289-340). -/
def get_epsg_from_geotiff_crs (geotiff_crs_data : GeoTiffCrs) : Except Error EpsgCRS :=
  match reduceEntries geotiff_crs_data.entries (0, none) with
  | .error e => .error e
  | .ok out =>
    if out.1 = 0 then .error (.LasError .UnreadableGeoTiffCrs)
    else
      let code : EpsgCRS := { horizontal := out.1, vertical := out.2 }
      if !(EPSG_RANGE_contains code.horizontal) then
        .error (.BadHorizontalCodeParsed code)
      else
        match code.vertical with
        | some v_code =>
          if !(EPSG_RANGE_contains v_code) then .ok { code with vertical := none }
          else .ok code
        | none => .ok code

/--
Modelled from the spec: the header-like source of §4.4/§6, whose three
signals (`get_wkt_crs_bytes`, `get_geotiff_crs`, `has_wkt_crs`) are provided
by the external `las` collaborator and are not under src/.
-/
structure Header where
  wkt_crs_bytes : Option (List Nat)
  geotiff_crs : Except LasError (Option GeoTiffCrs)
  has_wkt_crs : Bool
  deriving Repr

/--
`ParseEpsgCRS::get_epsg_crs for las::Header` (src/lib.rs lines 175-201).
The `log!` warnings keyed on `has_wkt_crs` have no effect on the returned
value and are omitted.
-/
def get_epsg_crs (hd : Header) : Except Error (Option EpsgCRS) :=
  match hd.wkt_crs_bytes with
  | some wkt =>
    match get_epsg_from_wkt_crs_bytes wkt with
    | .ok c => .ok (some c)
    | .error e => .error e
  | none =>
    match hd.geotiff_crs with
    | .error e => .error (.LasError e)
    | .ok (some geotiff) =>
      match get_epsg_from_geotiff_crs geotiff with
      | .ok c => .ok (some c)
      | .error e => .error e
    | .ok none => .ok none

/--
C2: for every byte substring handed to the WKT trailing-integer extractor,
`get_code` trims trailing ASCII whitespace, scans at most the last 10 bytes
from the end, skips until the first ASCII digit, accumulates the consecutive
run of digits least-significant-first into an unsigned 16-bit value, stopping
at the first non-digit after a digit, and returns 0 when no digit is found —
exactly the claim-shaped `get_code_spec`.
-/
theorem C2_trailing_integer_extractor :
    ∀ bytes : List Nat, get_code bytes = get_code_spec bytes :=
  get_code_eq_spec

/--
C3: on the input `"25832"` (a five-digit EPSG code in the trimmed tail), the
`u16` power-of-ten accumulator of the trailing-digit scan is multiplied past
`u16::MAX` (10000 × 10 = 100000) — `get_code_overflows` is `true`, which is
a panic under debug arithmetic — yet under the wrap-around semantics the
wrapped accumulator is never used and `get_code` still returns 25832.
-/
theorem C3_power_accumulator_overflow :
    get_code_overflows [34, 50, 53, 56, 51, 50, 34] = true ∧
    get_code [34, 50, 53, 56, 51, 50, 34] = 25832 := by
  decide

/--
C5: `EpsgCRS::new(h, v)` succeeds exactly when `h` lies in [1024, 32767] and
`v` is absent or lies in [1024, 32767]; on success the accessors return
exactly `h` and `v`; for every `h` outside the range it fails with
`BadEPSGCrs` regardless of `v`.
-/
theorem C5_new_checked_construction :
    ∀ (h : Nat) (v : Option Nat),
      h < 65536 → v.all (fun vc => decide (vc < 65536)) = true →
      ((∃ c, EpsgCRS.new h v = .ok c) ↔
        (EPSG_RANGE_contains h = true ∧ v.all EPSG_RANGE_contains = true)) ∧
      (∀ c, EpsgCRS.new h v = .ok c → c.get_horizontal = h ∧ c.get_vertical = v) ∧
      (EPSG_RANGE_contains h = false → EpsgCRS.new h v = .error .BadEPSGCrs) := by
  intro h v _ _
  refine ⟨?_, ?_, ?_⟩
  · cases v with
    | none =>
      by_cases hh : EPSG_RANGE_contains h = true <;>
        simp [EpsgCRS.new, EpsgCRS.in_epsg_range, Option.all, hh]
    | some vc =>
      by_cases hvc : EPSG_RANGE_contains vc = true <;>
        by_cases hh : EPSG_RANGE_contains h = true <;>
          simp [EpsgCRS.new, EpsgCRS.in_epsg_range, Option.all, hh, hvc]
  · intro c hc
    have hceq : c = ⟨h, v⟩ := by
      by_cases hr : EpsgCRS.in_epsg_range ⟨h, v⟩ = true <;>
        simp [EpsgCRS.new, hr] at hc
      exact hc.symm
    subst hceq
    exact ⟨rfl, rfl⟩
  · intro hfalse
    have hrange : EpsgCRS.in_epsg_range ⟨h, v⟩ = false := by
      cases v with
      | none => simpa [EpsgCRS.in_epsg_range] using hfalse
      | some vc =>
        simp [EpsgCRS.in_epsg_range, hfalse]
    simp [EpsgCRS.new, hrange]

/-- Witness for C5 at concrete codes 25832 / 5941 (success) and 500 (failure). -/
theorem C5_witness :
    (∃ c, EpsgCRS.new 25832 (some 5941) = .ok c) ∧
    EpsgCRS.new 500 none = .error .BadEPSGCrs := by
  constructor
  · exact ((C5_new_checked_construction 25832 (some 5941) (by decide)
      (by decide)).1).mpr (by decide)
  · exact (C5_new_checked_construction 500 none (by decide) (by decide)).2.2
      (by decide)

/--
C4: `get_epsg_crs` returns exactly the WKT scanner's result when raw WKT
bytes are present (the GeoTIFF directory is never consulted), otherwise
exactly the GeoTIFF reducer's result when a decoded directory is present,
and otherwise `Ok(None)` — an absent value, not an error.
-/
theorem C4_dispatcher_precedence :
    ∀ hd : Header,
      (∀ bs, hd.wkt_crs_bytes = some bs →
        get_epsg_crs hd = (get_epsg_from_wkt_crs_bytes bs).map some) ∧
      (hd.wkt_crs_bytes = none → ∀ g, hd.geotiff_crs = .ok (some g) →
        get_epsg_crs hd = (get_epsg_from_geotiff_crs g).map some) ∧
      (hd.wkt_crs_bytes = none → hd.geotiff_crs = .ok none →
        get_epsg_crs hd = .ok none) := by
  intro hd
  obtain ⟨w, gt, f⟩ := hd
  refine ⟨?_, ?_, ?_⟩
  · rintro bs rfl
    simp only [get_epsg_crs]
    cases hres : get_epsg_from_wkt_crs_bytes bs <;> simp [Except.map, hres]
  · rintro rfl g rfl
    simp only [get_epsg_crs]
    cases hres : get_epsg_from_geotiff_crs g <;> simp [Except.map, hres]
  · rintro rfl rfl
    rfl

/--
Witness for C4 at concrete headers: one with WKT bytes and a user-defined
GeoTIFF directory (which is ignored), one with only a GeoTIFF directory,
and one with neither.
-/
theorem C4_witness :
    get_epsg_crs ⟨some [34, 50, 57, 57, 52, 34, 93, 93],
        .ok (some ⟨[⟨1024, .U16 32767⟩]⟩), true⟩ =
      (get_epsg_from_wkt_crs_bytes [34, 50, 57, 57, 52, 34, 93, 93]).map some ∧
    get_epsg_crs ⟨none, .ok (some ⟨[⟨1024, .U16 1⟩, ⟨2048, .U16 25832⟩]⟩), false⟩ =
      (get_epsg_from_geotiff_crs ⟨[⟨1024, .U16 1⟩, ⟨2048, .U16 25832⟩]⟩).map some ∧
    get_epsg_crs ⟨none, .ok none, true⟩ = .ok none := by
  refine ⟨?_, ?_, ?_⟩
  · exact (C4_dispatcher_precedence _).1 _ rfl
  · exact (C4_dispatcher_precedence _).2.1 rfl _ rfl
  · exact (C4_dispatcher_precedence _).2.2 rfl rfl

/-- Whether a payload is the inline 16-bit kind (`GeoTiffData::U16`). -/
def GeoTiffData.isU16 : GeoTiffData → Bool
  | .U16 _ => true
  | _ => false

/-- An id-1024 payload the reducer walks past without failing: inline 0, 1, 2 or 3. -/
def acceptedModelType : GeoTiffData → Bool
  | .U16 n => decide (n ≤ 3)
  | _ => false

/--
Claim-shaped: the inline value of the last entry with key id 2048 or 3072
carrying an inline payload, with default `d` when there is none.
-/
def lastInlineHorizontal : List GeoTiffKeyEntry → Nat → Nat
  | [], d => d
  | e :: rest, d =>
    if e.id = 2048 ∨ e.id = 3072 then
      match e.data with
      | .U16 v => lastInlineHorizontal rest v
      | _ => lastInlineHorizontal rest d
    else lastInlineHorizontal rest d

/--
Claim-shaped: the inline value of the last entry with key id 4096 carrying
an inline payload, with default `d` when there is none.
-/
def lastInlineVertical : List GeoTiffKeyEntry → Option Nat → Option Nat
  | [], d => d
  | e :: rest, d =>
    if e.id = 4096 then
      match e.data with
      | .U16 v => lastInlineVertical rest (some v)
      | _ => lastInlineVertical rest d
    else lastInlineVertical rest d

/--
When every id-1024 entry carries an accepted inline model type, the entry
loop never fails and its final state is exactly the pair of last inline
horizontal and vertical candidates.
-/
lemma reduceEntries_ok :
    ∀ (entries : List GeoTiffKeyEntry) (hor : Nat) (ver : Option Nat),
      (∀ e ∈ entries, e.id = 1024 → acceptedModelType e.data = true) →
      reduceEntries entries (hor, ver) =
        .ok (lastInlineHorizontal entries hor, lastInlineVertical entries ver) := by
  intro entries
  induction entries with
  | nil => intro hor ver _; rfl
  | cons e rest ih =>
    intro hor ver hben
    have hbenRest : ∀ e' ∈ rest, e'.id = 1024 → acceptedModelType e'.data = true :=
      fun e' he' h => hben e' (List.mem_cons_of_mem _ he') h
    obtain ⟨eid, edata⟩ := e
    have hbenHead := hben ⟨eid, edata⟩ (List.mem_cons_self _ _)
    by_cases h1024 : eid = 1024
    · subst h1024
      cases edata with
      | U16 n =>
        have hn : n ≤ 3 := by simpa [acceptedModelType] using hbenHead rfl
        have hstep : reduceEntries (⟨1024, .U16 n⟩ :: rest) (hor, ver) =
            reduceEntries rest (hor, ver) := by
          interval_cases n <;> rfl
        rw [hstep, ih _ _ hbenRest]
        simp [lastInlineHorizontal, lastInlineVertical]
      | Ascii s => exact absurd (hbenHead rfl) (by simp [acceptedModelType])
      | Double s => exact absurd (hbenHead rfl) (by simp [acceptedModelType])
    · by_cases h2048 : eid = 2048 ∨ eid = 3072
      · have h4096 : ¬ eid = 4096 := by rcases h2048 with h | h <;> omega
        cases edata with
        | U16 v =>
          have hstep : reduceEntries (⟨eid, .U16 v⟩ :: rest) (hor, ver) =
              reduceEntries rest (v, ver) := by
            simp [reduceEntries, h1024, h2048]
          rw [hstep, ih _ _ hbenRest]
          simp [lastInlineHorizontal, lastInlineVertical, h2048, h4096]
        | Ascii s =>
          have hstep : reduceEntries (⟨eid, .Ascii s⟩ :: rest) (hor, ver) =
              reduceEntries rest (hor, ver) := by
            simp [reduceEntries, h1024, h2048]
          rw [hstep, ih _ _ hbenRest]
          simp [lastInlineHorizontal, lastInlineVertical, h2048, h4096]
        | Double s =>
          have hstep : reduceEntries (⟨eid, .Double s⟩ :: rest) (hor, ver) =
              reduceEntries rest (hor, ver) := by
            simp [reduceEntries, h1024, h2048]
          rw [hstep, ih _ _ hbenRest]
          simp [lastInlineHorizontal, lastInlineVertical, h2048, h4096]
      · by_cases h4096 : eid = 4096
        · subst h4096
          cases edata with
          | U16 v =>
            have hstep : reduceEntries (⟨4096, .U16 v⟩ :: rest) (hor, ver) =
                reduceEntries rest (hor, some v) := by
              simp [reduceEntries]
            rw [hstep, ih _ _ hbenRest]
            simp [lastInlineHorizontal, lastInlineVertical]
          | Ascii s =>
            have hstep : reduceEntries (⟨4096, .Ascii s⟩ :: rest) (hor, ver) =
                reduceEntries rest (hor, ver) := by
              simp [reduceEntries]
            rw [hstep, ih _ _ hbenRest]
            simp [lastInlineHorizontal, lastInlineVertical]
          | Double s =>
            have hstep : reduceEntries (⟨4096, .Double s⟩ :: rest) (hor, ver) =
                reduceEntries rest (hor, ver) := by
              simp [reduceEntries]
            rw [hstep, ih _ _ hbenRest]
            simp [lastInlineHorizontal, lastInlineVertical]
        · have hstep : reduceEntries (⟨eid, edata⟩ :: rest) (hor, ver) =
              reduceEntries rest (hor, ver) := by
            simp [reduceEntries, h1024, h2048, h4096]
          rw [hstep, ih _ _ hbenRest]
          simp [lastInlineHorizontal, lastInlineVertical, h2048, h4096]

/--
When every inline entry with key id 2048 or 3072 carries the value 0, the
last-write horizontal candidate stays 0.
-/
lemma lastInlineHorizontal_zero :
    ∀ entries : List GeoTiffKeyEntry,
      (∀ e ∈ entries, e.id = 2048 ∨ e.id = 3072 →
        (e.data = .U16 0 ∨ e.data.isU16 = false)) →
      lastInlineHorizontal entries 0 = 0 := by
  intro entries
  induction entries with
  | nil => intro _; rfl
  | cons e rest ih =>
    intro hz
    have hzRest : ∀ e' ∈ rest, e'.id = 2048 ∨ e'.id = 3072 →
        (e'.data = .U16 0 ∨ e'.data.isU16 = false) :=
      fun e' he' h => hz e' (List.mem_cons_of_mem _ he') h
    obtain ⟨eid, edata⟩ := e
    by_cases h2048 : eid = 2048 ∨ eid = 3072
    · have hd := hz ⟨eid, edata⟩ (List.mem_cons_self _ _) h2048
      cases edata with
      | U16 v =>
        have hv : v = 0 := by
          rcases hd with hd | hd
          · injection hd
          · simp [GeoTiffData.isU16] at hd
        subst hv
        simpa [lastInlineHorizontal, h2048] using ih hzRest
      | Ascii s => simpa [lastInlineHorizontal, h2048] using ih hzRest
      | Double s => simpa [lastInlineHorizontal, h2048] using ih hzRest
    · simpa [lastInlineHorizontal, h2048] using ih hzRest

/--
C1 (counterexample): a directory containing the entry `{id 1024, inline 0}`
together with `{id 2048, inline 25832}` does NOT fail with
`UnreadableGeoTiffCrs` — it succeeds with horizontal 25832 — refuting the
claim that the inline-0 model-type entry fails the decode regardless of the
other entries.
-/
theorem C1_counterexample :
    get_epsg_from_geotiff_crs ⟨[⟨1024, .U16 0⟩, ⟨2048, .U16 25832⟩]⟩ =
      .ok ⟨25832, none⟩ ∧
    get_epsg_from_geotiff_crs ⟨[⟨1024, .U16 0⟩, ⟨2048, .U16 25832⟩]⟩ ≠
      .error (.LasError .UnreadableGeoTiffCrs) := by
  decide

/--
C1 (amended): an entry `{id 1024, inline 0}` is walked past without
immediate error; the decode fails with `UnreadableGeoTiffCrs` provided every
id-1024 entry carries an accepted inline model type (0–3) and no entry with
id 2048 or 3072 records a nonzero inline horizontal candidate.
-/
theorem C1_model_type_zero_unreadable :
    ∀ g : GeoTiffCrs,
      (⟨1024, .U16 0⟩ : GeoTiffKeyEntry) ∈ g.entries →
      (∀ e ∈ g.entries, e.id = 1024 → acceptedModelType e.data = true) →
      (∀ e ∈ g.entries, e.id = 2048 ∨ e.id = 3072 →
        (e.data = .U16 0 ∨ e.data.isU16 = false)) →
      get_epsg_from_geotiff_crs g = .error (.LasError .UnreadableGeoTiffCrs) := by
  intro g _ hben hzero
  have hred := reduceEntries_ok g.entries 0 none hben
  have hhor := lastInlineHorizontal_zero g.entries hzero
  simp [get_epsg_from_geotiff_crs, hred, hhor]

/-- Witness for C1 (amended) at the one-entry directory `[{1024, inline 0}]`. -/
theorem C1_witness :
    get_epsg_from_geotiff_crs ⟨[⟨1024, .U16 0⟩]⟩ =
      .error (.LasError .UnreadableGeoTiffCrs) :=
  C1_model_type_zero_unreadable ⟨[⟨1024, .U16 0⟩]⟩ (by decide) (by decide) (by decide)

/--
C7 (counterexample): in the GeoTIFF reducer an extracted horizontal code of
0 — which lies outside [1024, 32767] — fails with `UnreadableGeoTiffCrs`
rather than with `BadHorizontalCodeParsed`, refuting the claim for the
GeoTIFF side.
-/
theorem C7_counterexample :
    get_epsg_from_geotiff_crs ⟨[⟨1024, .U16 1⟩, ⟨2048, .U16 0⟩]⟩ =
      .error (.LasError .UnreadableGeoTiffCrs) ∧
    get_epsg_from_geotiff_crs ⟨[⟨1024, .U16 1⟩, ⟨2048, .U16 0⟩]⟩ ≠
      .error (.BadHorizontalCodeParsed ⟨0, none⟩) := by
  decide

/--
C7 (amended): the WKT scanner fails with `BadHorizontalCodeParsed` carrying
the constructed value whenever the extracted horizontal code is out of range
(in particular a trailing numeral resolving to 0); the GeoTIFF reducer does
so whenever its final horizontal candidate is nonzero and out of range (a
zero candidate fails earlier with `UnreadableGeoTiffCrs`).
-/
theorem C7_bad_horizontal_preserved :
    (∀ bytes : List Nat,
      EPSG_RANGE_contains (wktCodes bytes).1 = false →
      get_epsg_from_wkt_crs_bytes bytes =
        .error (.BadHorizontalCodeParsed
          ⟨(wktCodes bytes).1, some (wktCodes bytes).2⟩)) ∧
    (∀ (g : GeoTiffCrs) (hor : Nat) (ver : Option Nat),
      reduceEntries g.entries (0, none) = .ok (hor, ver) →
      hor ≠ 0 →
      EPSG_RANGE_contains hor = false →
      get_epsg_from_geotiff_crs g = .error (.BadHorizontalCodeParsed ⟨hor, ver⟩)) := by
  constructor
  · intro bytes hout
    simp [get_epsg_from_wkt_crs_bytes, hout]
  · intro g hor ver hred hne hout
    simp [get_epsg_from_geotiff_crs, hred, hne, hout]

/--
Witness for C7 (amended): the WKT bytes `"0"` yield horizontal 0 and fail
with `BadHorizontalCodeParsed` carrying horizontal = 0; a directory with the
inline horizontal candidate 40000 fails carrying 40000.
-/
theorem C7_witness :
    get_epsg_from_wkt_crs_bytes [34, 48, 34] =
      .error (.BadHorizontalCodeParsed ⟨0, some 0⟩) ∧
    get_epsg_from_geotiff_crs ⟨[⟨1024, .U16 1⟩, ⟨2048, .U16 40000⟩]⟩ =
      .error (.BadHorizontalCodeParsed ⟨40000, none⟩) := by
  constructor
  · exact C7_bad_horizontal_preserved.1 [34, 48, 34] (by decide)
  · exact C7_bad_horizontal_preserved.2 ⟨[⟨1024, .U16 1⟩, ⟨2048, .U16 40000⟩]⟩
      40000 none (by decide) (by decide) (by decide)

/--
C8: in both the WKT scanner and the GeoTIFF reducer, when the horizontal
code is in range but the extracted vertical code is out of range (for WKT
this includes the no-vertical-substring case, which yields 0), the vertical
component is silently cleared to absent and the function succeeds.
-/
theorem C8_vertical_silently_cleared :
    (∀ bytes : List Nat,
      EPSG_RANGE_contains (wktCodes bytes).1 = true →
      EPSG_RANGE_contains (wktCodes bytes).2 = false →
      get_epsg_from_wkt_crs_bytes bytes = .ok ⟨(wktCodes bytes).1, none⟩) ∧
    (∀ (g : GeoTiffCrs) (hor vc : Nat),
      reduceEntries g.entries (0, none) = .ok (hor, some vc) →
      EPSG_RANGE_contains hor = true →
      EPSG_RANGE_contains vc = false →
      get_epsg_from_geotiff_crs g = .ok ⟨hor, none⟩) := by
  constructor
  · intro bytes hh hv
    simp [get_epsg_from_wkt_crs_bytes, hh, hv]
  · intro g hor vc hred hh hv
    have hne : hor ≠ 0 := by
      intro h0
      subst h0
      simp [EPSG_RANGE_contains] at hh
    simp [get_epsg_from_geotiff_crs, hred, hne, hh, hv]

/--
Witness for C8: WKT bytes ending in `"2994"]]` with no vertical marker
(vertical code 0) succeed with vertical absent; a directory with in-range
horizontal 25832 and out-of-range vertical 100 succeeds with vertical absent.
-/
theorem C8_witness :
    get_epsg_from_wkt_crs_bytes [34, 50, 57, 57, 52, 34, 93, 93] =
      .ok ⟨2994, none⟩ ∧
    get_epsg_from_geotiff_crs ⟨[⟨1024, .U16 1⟩, ⟨2048, .U16 25832⟩, ⟨4096, .U16 100⟩]⟩ =
      .ok ⟨25832, none⟩ := by
  constructor
  · exact C8_vertical_silently_cleared.1 [34, 50, 57, 57, 52, 34, 93, 93]
      (by decide) (by decide)
  · exact C8_vertical_silently_cleared.2
      ⟨[⟨1024, .U16 1⟩, ⟨2048, .U16 25832⟩, ⟨4096, .U16 100⟩]⟩ 25832 100
      (by decide) (by decide) (by decide)

/--
C9 (counterexample): two directories holding the same entries in different
orders — permutations of each other — decode to different results because
duplicate id-4096 (vertical) entries are also resolved last-write-wins,
refuting the claim that the reduction is order-independent except for
duplicate horizontal-code keys.
-/
theorem C9_counterexample :
    List.Perm
      ([⟨1024, .U16 1⟩, ⟨2048, .U16 25832⟩, ⟨4096, .U16 5941⟩, ⟨4096, .U16 5000⟩] :
        List GeoTiffKeyEntry)
      [⟨1024, .U16 1⟩, ⟨2048, .U16 25832⟩, ⟨4096, .U16 5000⟩, ⟨4096, .U16 5941⟩] ∧
    get_epsg_from_geotiff_crs
        ⟨[⟨1024, .U16 1⟩, ⟨2048, .U16 25832⟩, ⟨4096, .U16 5941⟩, ⟨4096, .U16 5000⟩]⟩ =
      .ok ⟨25832, some 5000⟩ ∧
    get_epsg_from_geotiff_crs
        ⟨[⟨1024, .U16 1⟩, ⟨2048, .U16 25832⟩, ⟨4096, .U16 5000⟩, ⟨4096, .U16 5941⟩]⟩ =
      .ok ⟨25832, some 5941⟩ := by
  decide

/--
C9 (amended): an inline entry with id 2048 or 3072 records its value as the
horizontal candidate and the one encountered last in directory order wins;
likewise the last inline id-4096 entry determines the vertical candidate;
when no id-1024 entry triggers an error, the reduction depends on entry
order only through these two last-write rules, because its result is
exactly the pair of last inline candidates.
-/
theorem C9_last_write_wins :
    ∀ entries : List GeoTiffKeyEntry,
      (∀ e ∈ entries, e.id = 1024 → acceptedModelType e.data = true) →
      reduceEntries entries (0, none) =
        .ok (lastInlineHorizontal entries 0, lastInlineVertical entries none) := by
  intro entries hben
  exact reduceEntries_ok entries 0 none hben

/-- Witness for C9 (amended): both 2048 and 3072 present, the later wins. -/
theorem C9_witness :
    reduceEntries
        [⟨2048, .U16 1111⟩, ⟨3072, .U16 25832⟩, ⟨4096, .U16 5000⟩, ⟨4096, .U16 5941⟩]
        (0, none) =
      .ok (25832, some 5941) := by
  rw [C9_last_write_wins _ (by decide)]
  decide

/--
C10: an entry with key id 2048, 3072 or 4096 whose payload is not the inline
16-bit kind is silently skipped — the reduction state is unchanged and no
error is raised for it — and consequently a directory whose only
horizontal-code entries carry non-inline payloads fails with
`UnreadableGeoTiffCrs` (the candidate is still 0), not with
`UnimplementedForGeoTiffStringAndDoubleData`.
-/
theorem C10_noninline_skipped :
    (∀ (e : GeoTiffKeyEntry) (rest : List GeoTiffKeyEntry) (st : Nat × Option Nat),
      (e.id = 2048 ∨ e.id = 3072 ∨ e.id = 4096) →
      e.data.isU16 = false →
      reduceEntries (e :: rest) st = reduceEntries rest st) ∧
    (∀ g : GeoTiffCrs,
      (∀ e ∈ g.entries, e.id = 1024 → acceptedModelType e.data = true) →
      (∀ e ∈ g.entries, e.id = 2048 ∨ e.id = 3072 → e.data.isU16 = false) →
      (∃ e ∈ g.entries, e.id = 2048 ∨ e.id = 3072) →
      get_epsg_from_geotiff_crs g = .error (.LasError .UnreadableGeoTiffCrs)) := by
  constructor
  · intro e rest st hid hdata
    obtain ⟨eid, edata⟩ := e
    obtain ⟨hor, ver⟩ := st
    have hid' : eid = 2048 ∨ eid = 3072 ∨ eid = 4096 := hid
    have hdata' : edata.isU16 = false := hdata
    cases edata with
    | U16 v => simp [GeoTiffData.isU16] at hdata'
    | Ascii s =>
      rcases hid' with h | h | h <;> subst h <;> simp [reduceEntries]
    | Double s =>
      rcases hid' with h | h | h <;> subst h <;> simp [reduceEntries]
  · intro g hben hnoninline _
    have hzero : ∀ e ∈ g.entries, e.id = 2048 ∨ e.id = 3072 →
        (e.data = .U16 0 ∨ e.data.isU16 = false) :=
      fun e he h => Or.inr (hnoninline e he h)
    have hred := reduceEntries_ok g.entries 0 none hben
    have hhor := lastInlineHorizontal_zero g.entries hzero
    simp [get_epsg_from_geotiff_crs, hred, hhor]

/--
Witness for C10: skipping a double-payload id-2048 entry, and a directory
whose only horizontal-code entry is an ASCII payload failing with
`UnreadableGeoTiffCrs`.
-/
theorem C10_witness :
    reduceEntries [⟨2048, .Double [0, 0]⟩, ⟨1024, .U16 1⟩] (0, none) =
      reduceEntries [⟨1024, .U16 1⟩] (0, none) ∧
    get_epsg_from_geotiff_crs ⟨[⟨1024, .U16 1⟩, ⟨2048, .Ascii [69]⟩]⟩ =
      .error (.LasError .UnreadableGeoTiffCrs) := by
  constructor
  · exact C10_noninline_skipped.1 ⟨2048, .Double [0, 0]⟩ _ _ (by decide) (by decide)
  · exact C10_noninline_skipped.2 ⟨[⟨1024, .U16 1⟩, ⟨2048, .Ascii [69]⟩]⟩
      (by decide) (by decide) ⟨⟨2048, .Ascii [69]⟩, by decide, by decide⟩

/-- `findSubIdx` finds exactly the first position where `pat` matches. -/
lemma findSubIdx_of_first :
    ∀ (pat l : List Nat) (i : Nat),
      pat.isPrefixOf (l.drop i) = true →
      (∀ j < i, pat.isPrefixOf (l.drop j) = false) →
      findSubIdx pat l = some i := by
  intro pat l
  induction l with
  | nil =>
    intro i h1 h2
    cases i with
    | zero => simpa [findSubIdx] using h1
    | succ n =>
      have h1' : pat = [] := by simpa using h1
      have h2' := h2 0 (Nat.succ_pos n)
      rw [List.drop_zero] at h2'
      subst h1'
      simp [List.isPrefixOf] at h2'
  | cons b rest ih =>
    intro i h1 h2
    cases i with
    | zero =>
      simp only [List.drop_zero] at h1
      simp [findSubIdx, h1]
    | succ n =>
      have hhead : pat.isPrefixOf (b :: rest) = false := by
        simpa using h2 0 (Nat.succ_pos n)
      have hrest : findSubIdx pat rest = some n := by
        apply ih
        · simpa using h1
        · intro j hj
          simpa using h2 (j + 1) (Nat.succ_lt_succ hj)
      simp [findSubIdx, hhead, hrest]

/-- `findSubIdx` returns `none` when `pat` matches at no position. -/
lemma findSubIdx_none_of :
    ∀ (pat l : List Nat),
      (∀ j ≤ l.length, pat.isPrefixOf (l.drop j) = false) →
      findSubIdx pat l = none := by
  intro pat l
  induction l with
  | nil =>
    intro h
    have := h 0 (Nat.le_refl 0)
    simp only [List.drop_zero] at this
    simp [findSubIdx, this]
  | cons b rest ih =>
    intro h
    have hhead : pat.isPrefixOf (b :: rest) = false := by
      simpa using h 0 (Nat.zero_le _)
    have hrest : findSubIdx pat rest = none := by
      apply ih
      intro j hj
      simpa using h (j + 1) (by simpa using Nat.succ_le_succ hj)
    simp [findSubIdx, hhead, hrest]

/-- `splitOnce` at the first occurrence of `pat`. -/
lemma splitOnce_eq_some (pat l : List Nat) (i : Nat)
    (h1 : pat.isPrefixOf (l.drop i) = true)
    (h2 : ∀ j < i, pat.isPrefixOf (l.drop j) = false) :
    splitOnce pat l = some (l.take i, l.drop (i + pat.length)) := by
  simp [splitOnce, findSubIdx_of_first pat l i h1 h2]

/-- `splitOnce` when `pat` occurs nowhere. -/
lemma splitOnce_eq_none (pat l : List Nat)
    (h : ∀ j ≤ l.length, pat.isPrefixOf (l.drop j) = false) :
    splitOnce pat l = none := by
  simp [splitOnce, findSubIdx_none_of pat l h]

/--
C6 (counterexample): on the text `"AB" ++ "VERTCRS" ++ "CD"` the split
produces the vertical substring `"CD"` — the text *after* the marker — not
`"VERTCRSCD"`, refuting the claim that the vertical substring is everything
from the marker onward (marker included).
-/
theorem C6_counterexample :
    wktSplit ([65, 66] ++ vertcrsMarker ++ [67, 68]) = .Two [65, 66] [67, 68] ∧
    wktSplit ([65, 66] ++ vertcrsMarker ++ [67, 68]) ≠
      .Two [65, 66] (vertcrsMarker ++ [67, 68]) := by
  decide

/--
C6 (amended): the marker is chosen by the fixed priority `"VERTCRS"`,
`"VERTICALCRS"`, `"VERT_CS"` (not by left-to-right position); the chosen
marker's first occurrence splits the text into the horizontal substring
(everything before the marker) and the vertical substring (everything
*after* the marker, the marker itself dropped); when none of the three
markers occurs the whole text is the horizontal substring and there is no
vertical substring.
-/
theorem C6_marker_priority_split :
    ∀ (text : List Nat) (i : Nat),
      ((vertcrsMarker.isPrefixOf (text.drop i) = true ∧
        ∀ j < i, vertcrsMarker.isPrefixOf (text.drop j) = false) →
        wktSplit text = .Two (text.take i) (text.drop (i + vertcrsMarker.length))) ∧
      ((∀ j ≤ text.length, vertcrsMarker.isPrefixOf (text.drop j) = false) →
        (verticalcrsMarker.isPrefixOf (text.drop i) = true ∧
         ∀ j < i, verticalcrsMarker.isPrefixOf (text.drop j) = false) →
        wktSplit text = .Two (text.take i) (text.drop (i + verticalcrsMarker.length))) ∧
      ((∀ j ≤ text.length, vertcrsMarker.isPrefixOf (text.drop j) = false) →
        (∀ j ≤ text.length, verticalcrsMarker.isPrefixOf (text.drop j) = false) →
        (vertcsMarker.isPrefixOf (text.drop i) = true ∧
         ∀ j < i, vertcsMarker.isPrefixOf (text.drop j) = false) →
        wktSplit text = .Two (text.take i) (text.drop (i + vertcsMarker.length))) ∧
      ((∀ j ≤ text.length, vertcrsMarker.isPrefixOf (text.drop j) = false) →
        (∀ j ≤ text.length, verticalcrsMarker.isPrefixOf (text.drop j) = false) →
        (∀ j ≤ text.length, vertcsMarker.isPrefixOf (text.drop j) = false) →
        wktSplit text = .One text) := by
  intro text i
  refine ⟨?_, ?_, ?_, ?_⟩
  · rintro ⟨h1, h2⟩
    simp [wktSplit, splitOnce_eq_some vertcrsMarker text i h1 h2]
  · rintro hno1 ⟨h1, h2⟩
    simp [wktSplit, splitOnce_eq_none vertcrsMarker text hno1,
      splitOnce_eq_some verticalcrsMarker text i h1 h2]
  · rintro hno1 hno2 ⟨h1, h2⟩
    simp [wktSplit, splitOnce_eq_none vertcrsMarker text hno1,
      splitOnce_eq_none verticalcrsMarker text hno2,
      splitOnce_eq_some vertcsMarker text i h1 h2]
  · rintro hno1 hno2 hno3
    simp [wktSplit, splitOnce_eq_none vertcrsMarker text hno1,
      splitOnce_eq_none verticalcrsMarker text hno2,
      splitOnce_eq_none vertcsMarker text hno3]

/--
Witness for C6 (amended) at four concrete texts: one containing `"VERTCRS"`,
one containing `"VERTICALCRS"` (and no `"VERTCRS"`), one containing
`"VERT_CS"` (and neither of the others), and one containing no marker.
-/
theorem C6_witness :
    wktSplit ([65, 66] ++ vertcrsMarker ++ [67, 68]) = .Two [65, 66] [67, 68] ∧
    wktSplit ([65] ++ verticalcrsMarker) = .Two [65] [] ∧
    wktSplit (vertcsMarker ++ [49, 50]) = .Two [] [49, 50] ∧
    wktSplit [88, 89] = .One [88, 89] := by
  refine ⟨?_, ?_, ?_, ?_⟩
  · exact (C6_marker_priority_split ([65, 66] ++ vertcrsMarker ++ [67, 68]) 2).1
      ⟨by decide, by decide⟩
  · exact (C6_marker_priority_split ([65] ++ verticalcrsMarker) 1).2.1
      (by decide) ⟨by decide, by decide⟩
  · exact (C6_marker_priority_split (vertcsMarker ++ [49, 50]) 0).2.2.1
      (by decide) (by decide) ⟨by decide, by decide⟩
  · exact (C6_marker_priority_split [88, 89] 0).2.2.2
      (by decide) (by decide) (by decide)

end LasCrs
